import Mathlib

/-!
Verification of the HookTM capture/store/replay pipeline.

This file gives a shallow embedding, in Lean 4, of the parts of the HookTM
source that the verified properties speak about:

* the replay engine's merge-patch application (internal/replay),
* the provider detector (internal/provider),
* the recording proxy's request handling (internal/proxy),
* the SQLite-backed store: insert / get / list / search / delete together
  with the FTS5 external-content index kept by triggers (internal/store).

Go maps of headers (`map[string][]string`) are embedded as association
lists; byte slices as `String` (one `Char` per byte — every input the
claims exercise is ASCII); SQL `NULL`-able columns as `Option`.  External
collaborators whose behaviour the code relies on (the `jsonpatch` merge
patch library, SQLite's FTS5 query language) are embedded from their
documented semantics, which each doc comment states explicitly.
-/

namespace HookTM

/-- Bool test: does the list start with the given subsequence?  Helper for the
embedding of Go's `strings.Contains`. -/
def startsWithSeq [BEq α] : List α → List α → Bool
  | [], _ => true
  | _ :: _, [] => false
  | a :: as, b :: bs => a == b && startsWithSeq as bs

/-- Bool test: does `sub` occur contiguously inside the second list? -/
def hasSubSeq [BEq α] (sub : List α) : List α → Bool
  | [] => startsWithSeq sub []
  | b :: bs => startsWithSeq sub (b :: bs) || hasSubSeq sub bs

/-- Embedding of Go `strings.Contains s sub`. -/
def strContains (s sub : String) : Bool := hasSubSeq sub.data s.data

/-- Embedding of Go `strings.ToLower` (character-wise lowering; the header
names and content types the program compares are ASCII). -/
def strToLower (s : String) : String := String.mk (s.data.map Char.toLower)

/-- Embedding of Go `strings.TrimSpace`: drop leading and trailing
whitespace. -/
def strTrim (s : String) : String :=
  String.mk (((s.data.dropWhile Char.isWhitespace).reverse.dropWhile
    Char.isWhitespace).reverse)

/-- JSON values, as produced by Go's `encoding/json` unmarshalling.  Numbers
are restricted to integers: every numeric literal the program's contracts
exercise is an integer, and nothing in the claims depends on fractional
values. -/
inductive Json where
  | null
  | bool (b : Bool)
  | num (n : Int)
  | str (s : String)
  | arr (items : List Json)
  | obj (fields : List (String × Json))

/-- Bool test for the `null` constructor (used instead of decidable equality
on `Json`, which the nested induction makes awkward to derive). -/
def isNull : Json → Bool
  | Json.null => true
  | _ => false

/-- First value bound to key `k` in a JSON object's field list. -/
def lookupKey (k : String) : List (String × Json) → Option Json
  | [] => none
  | (k1, v) :: rest => if k1 = k then some v else lookupKey k rest

/-- Remove every binding of key `k` from a field list. -/
def removeKey (k : String) : List (String × Json) → List (String × Json)
  | [] => []
  | (k1, v) :: rest => if k1 = k then removeKey k rest else (k1, v) :: removeKey k rest

/-- Replace the first binding of key `k` (or append one) in a field list. -/
def setKey (k : String) (v : Json) : List (String × Json) → List (String × Json)
  | [] => [(k, v)]
  | (k1, v1) :: rest => if k1 = k then (k, v) :: rest else (k1, v1) :: setKey k v rest

mutual

/-- RFC 7396 JSON merge patch.  This embeds the external
`jsonpatch.MergePatch` collaborator the replay engine calls, at the level of
parsed JSON values, following the RFC's algorithm (which the library
implements and the spec's glossary names): when the patch is an object, each
`null`-valued member deletes the key, every other member is merged
recursively into the target member (an absent or non-object target member
counts as `{}` for that recursion); a non-object patch — arrays included —
replaces the target wholesale. -/
def mergePatch : Json → Json → Json
  | t, Json.obj pf =>
      Json.obj (mergeFields (match t with | Json.obj tf => tf | _ => []) pf)
  | _, p => p

/-- One pass of RFC 7396 over the members of an object patch. -/
def mergeFields : List (String × Json) → List (String × Json) → List (String × Json)
  | tf, [] => tf
  | tf, (k, v) :: rest =>
      if isNull v then mergeFields (removeKey k tf) rest
      else mergeFields (setKey k (mergePatch ((lookupKey k tf).getD Json.null) v) tf) rest

end

/-- JSON whitespace, as in RFC 8259 (also what Go's decoder skips). -/
def isWsChar (c : Char) : Bool := c == ' ' || c == '\t' || c == '\n' || c == '\r'

/-- Drop leading JSON whitespace. -/
def skipWs : List Char → List Char
  | [] => []
  | c :: cs => if isWsChar c then skipWs cs else c :: cs

/-- JSON string escapes (the subset the exercised payloads use; `\u` escapes
are rejected rather than mis-read). -/
def unescapeChar (c : Char) : Option Char :=
  if c = '"' then some '"'
  else if c = '\\' then some '\\'
  else if c = '/' then some '/'
  else if c = 'n' then some '\n'
  else if c = 't' then some '\t'
  else if c = 'r' then some '\r'
  else if c = 'b' then some (Char.ofNat 8)
  else if c = 'f' then some (Char.ofNat 12)
  else none

/-- Parse the characters of a JSON string after its opening quote; returns
the decoded characters and the input after the closing quote. -/
def parseStrChars : List Char → Option (List Char × List Char)
  | [] => none
  | c :: rest =>
    if c = '"' then some ([], rest)
    else if c = '\\' then
      match rest with
      | [] => none
      | e :: rest2 =>
        match unescapeChar e, parseStrChars rest2 with
        | some u, some (s, r) => some (u :: s, r)
        | _, _ => none
    else
      match parseStrChars rest with
      | some (s, r) => some (c :: s, r)
      | none => none

/-- Split a maximal run of decimal digits off the front of the input. -/
def takeDigits : List Char → (List Char × List Char)
  | [] => ([], [])
  | c :: cs =>
    if c.isDigit then
      let (ds, r) := takeDigits cs
      (c :: ds, r)
    else ([], c :: cs)

/-- Decimal digits to a natural number. -/
def digitsToNat (acc : Nat) : List Char → Nat
  | [] => acc
  | c :: cs => digitsToNat (acc * 10 + (c.toNat - 48)) cs

/-- Fractional or exponent syntax is outside the integer fragment this
embedding covers; refuse it instead of mis-parsing. -/
def numBreak : List Char → Bool
  | [] => true
  | c :: _ => !(c == '.' || c == 'e' || c == 'E')

/-- Parse a JSON integer literal. -/
def parseNumber (cs : List Char) : Option (Json × List Char) :=
  match cs with
  | '-' :: rest =>
      match takeDigits rest with
      | ([], _) => none
      | (ds, r) => if numBreak r then some (Json.num (-(Int.ofNat (digitsToNat 0 ds))), r) else none
  | _ =>
      match takeDigits cs with
      | ([], _) => none
      | (ds, r) => if numBreak r then some (Json.num (Int.ofNat (digitsToNat 0 ds)), r) else none

mutual

/-- Fuelled recursive-descent JSON parser (the embedding of
`encoding/json` unmarshalling into generic values).  Fuel only bounds the
recursion; `parseJson` supplies more fuel than any input can consume. -/
def parseValue : Nat → List Char → Option (Json × List Char)
  | 0, _ => none
  | fuel + 1, cs =>
    match skipWs cs with
    | 'n' :: 'u' :: 'l' :: 'l' :: r => some (Json.null, r)
    | 't' :: 'r' :: 'u' :: 'e' :: r => some (Json.bool true, r)
    | 'f' :: 'a' :: 'l' :: 's' :: 'e' :: r => some (Json.bool false, r)
    | '"' :: r =>
        match parseStrChars r with
        | some (s, r1) => some (Json.str (String.mk s), r1)
        | none => none
    | '[' :: r =>
        match skipWs r with
        | ']' :: r2 => some (Json.arr [], r2)
        | r2 =>
            match parseItems fuel r2 with
            | some (vs, r3) => some (Json.arr vs, r3)
            | none => none
    | '{' :: r =>
        match skipWs r with
        | '}' :: r2 => some (Json.obj [], r2)
        | r2 =>
            match parseMembers fuel r2 with
            | some (ms, r3) => some (Json.obj ms, r3)
            | none => none
    | cs1 => parseNumber cs1

/-- Comma-separated array items up to the closing bracket. -/
def parseItems : Nat → List Char → Option (List Json × List Char)
  | 0, _ => none
  | fuel + 1, cs =>
    match parseValue fuel cs with
    | none => none
    | some (v, r) =>
      match skipWs r with
      | ',' :: r2 =>
          match parseItems fuel r2 with
          | some (vs, r3) => some (v :: vs, r3)
          | none => none
      | ']' :: r2 => some ([v], r2)
      | _ => none

/-- Comma-separated object members up to the closing brace. -/
def parseMembers : Nat → List Char → Option (List (String × Json) × List Char)
  | 0, _ => none
  | fuel + 1, cs =>
    match skipWs cs with
    | '"' :: r =>
        match parseStrChars r with
        | none => none
        | some (kcs, r1) =>
          match skipWs r1 with
          | ':' :: r2 =>
              match parseValue fuel r2 with
              | none => none
              | some (v, r3) =>
                match skipWs r3 with
                | ',' :: r4 =>
                    match parseMembers fuel r4 with
                    | some (ms, r5) => some ((String.mk kcs, v) :: ms, r5)
                    | none => none
                | '}' :: r4 => some ([(String.mk kcs, v)], r4)
                | _ => none
          | _ => none
    | _ => none

end

/-- Parse a whole JSON document: one value, then only whitespace. -/
def parseJson (s : String) : Option Json :=
  match parseValue (2 * s.data.length + 2) s.data with
  | some (v, r) => if skipWs r = [] then some v else none
  | none => none

/-- Escape one character for a JSON string literal. -/
def escapeStringChar (c : Char) : List Char :=
  if c = '"' then ['\\', '"']
  else if c = '\\' then ['\\', '\\']
  else if c = '\n' then ['\\', 'n']
  else if c = '\t' then ['\\', 't']
  else if c = '\r' then ['\\', 'r']
  else [c]

/-- Render a JSON string literal. -/
def renderString (s : String) : String :=
  String.mk ('"' :: ((s.data.map escapeStringChar).flatten ++ ['"']))

mutual

/-- Compact rendering of a JSON value (what `encoding/json` marshalling
produces for the values the claims exercise). -/
def render : Json → String
  | Json.null => "null"
  | Json.bool true => "true"
  | Json.bool false => "false"
  | Json.num n => toString n
  | Json.str s => renderString s
  | Json.arr items => "[" ++ renderItems items ++ "]"
  | Json.obj fields => "\x7b" ++ renderFields fields ++ "\x7d"

/-- Comma-join rendered array items. -/
def renderItems : List Json → String
  | [] => ""
  | [v] => render v
  | v :: rest => render v ++ "," ++ renderItems rest

/-- Comma-join rendered object members. -/
def renderFields : List (String × Json) → String
  | [] => ""
  | [(k, v)] => renderString k ++ ":" ++ render v
  | (k, v) :: rest => renderString k ++ ":" ++ render v ++ "," ++ renderFields rest

end

/-- A stored webhook as the store's `GetWebhook` returns it
(`store.Webhook`).  Optional columns come back as Go zero values (empty
string / nil pointer), mirrored here by `""` and `Option`. -/
structure Webhook where
  ID : String
  CreatedAt : Int
  Method : String
  Path : String
  Query : String
  Headers : List (String × List String)
  Body : String
  Provider : String
  EventType : String
  Signature : String
  StatusCode : Option Int
  ResponseMS : Int
  BodyText : String
deriving DecidableEq

/-- Embedding of the replay engine's `firstHeader`: the first header entry
whose key compares case-insensitively equal to `k` and has a value.  (Go
ranges over a map, so among several case-variant keys the one picked is
unspecified; association-list order stands in for that choice.
`strings.EqualFold` is embedded as equality of `toLower` images, which
agrees with it on the ASCII header names the program uses.) -/
def firstHeader (h : List (String × List String)) (k : String) : String :=
  match h.find? (fun kv => strToLower kv.1 == strToLower k && !kv.2.isEmpty) with
  | some kv => kv.2.headD ""
  | none => ""

/-- Embedding of the replay engine's `looksLikeJSON`: after trimming
whitespace, does the body start with an object or array opener? -/
def looksLikeJSON (b : String) : Bool :=
  match (strTrim b).data with
  | [] => false
  | c :: _ => c == '{' || c == '['

/-- Embedding of the replay engine's `applyMergePatchIfJSON`.  A body that is
not JSON-ish (content type without "application/json" and first
non-whitespace byte neither an object nor an array opener) passes through
unchanged; otherwise an empty body counts as `{}` and the external
`jsonpatch.MergePatch` call is embedded as parse / RFC 7396 merge / render,
failing on a malformed document or patch exactly where the library does. -/
def applyMergePatchIfJSON (headers : List (String × List String))
    (body patch : String) : Except String String :=
  let ct := strToLower (firstHeader headers "Content-Type")
  if !strContains ct "application/json" && !looksLikeJSON body then Except.ok body
  else
    let body1 := if body.length = 0 then "\x7b\x7d" else body
    match parseJson body1 with
    | none => Except.error "invalid original document"
    | some doc =>
      match parseJson patch with
      | none => Except.error "invalid merge patch"
      | some p => Except.ok (render (mergePatch doc p))

/-- The body `Engine.ReplayByID` sends for a stored webhook and a merge-patch
argument (the patch block of `ReplayByID`): a non-blank patch goes through
`applyMergePatchIfJSON`, whose error aborts the replay; a blank patch leaves
the stored body untouched. -/
def replayBody (wh : Webhook) (mergePatchStr : String) : Except String String :=
  if strTrim mergePatchStr ≠ "" then applyMergePatchIfJSON wh.Headers wh.Body mergePatchStr
  else Except.ok wh.Body

/-- `isNull` decides being the `null` constructor. -/
theorem isNull_eq_false_iff (v : Json) : isNull v = false ↔ v ≠ Json.null := by
  cases v <;> simp [isNull]

/-- `isNull` holds exactly on `null`. -/
theorem isNull_eq_true_iff (v : Json) : isNull v = true ↔ v = Json.null := by
  cases v <;> simp [isNull]

/-- Looking a key up after removing another key. -/
theorem lookupKey_removeKey (k k1 : String) (tf : List (String × Json)) :
    lookupKey k (removeKey k1 tf) = if k1 = k then none else lookupKey k tf := by
  induction tf with
  | nil => simp [removeKey, lookupKey]
  | cons hd rest ih =>
      obtain ⟨k2, v2⟩ := hd
      rw [removeKey]
      by_cases h2 : k2 = k1
      · subst h2
        rw [if_pos rfl, ih]
        by_cases h1 : k2 = k
        · rw [if_pos h1, if_pos h1]
        · rw [if_neg h1, if_neg h1, lookupKey, if_neg h1]
      · rw [if_neg h2]
        by_cases h3 : k2 = k
        · have hk1 : ¬ k1 = k := fun hh => h2 (h3.trans hh.symm)
          rw [lookupKey, if_pos h3, if_neg hk1, lookupKey, if_pos h3]
        · rw [lookupKey, if_neg h3, ih]
          by_cases h1 : k1 = k
          · rw [if_pos h1, if_pos h1]
          · rw [if_neg h1, if_neg h1, lookupKey, if_neg h3]

/-- Looking a key up after setting another key. -/
theorem lookupKey_setKey (k k1 : String) (v : Json) (tf : List (String × Json)) :
    lookupKey k (setKey k1 v tf) = if k1 = k then some v else lookupKey k tf := by
  induction tf with
  | nil => simp [setKey, lookupKey]
  | cons hd rest ih =>
      obtain ⟨k2, v2⟩ := hd
      rw [setKey]
      by_cases h2 : k2 = k1
      · subst h2
        rw [if_pos rfl]
        by_cases h1 : k2 = k
        · rw [lookupKey, if_pos h1, if_pos h1]
        · rw [lookupKey, if_neg h1, if_neg h1, lookupKey, if_neg h1]
      · rw [if_neg h2]
        by_cases h3 : k2 = k
        · have hk1 : ¬ k1 = k := fun hh => h2 (h3.trans hh.symm)
          rw [lookupKey, if_pos h3, if_neg hk1, lookupKey, if_pos h3]
        · rw [lookupKey, if_neg h3, ih]
          by_cases h1 : k1 = k
          · rw [if_pos h1, if_pos h1]
          · rw [if_neg h1, if_neg h1, lookupKey, if_neg h3]

/-- Merging a patch that never mentions key `k` leaves `k`'s binding alone. -/
theorem lookupKey_mergeFields_of_notMem (k : String) (pf : List (String × Json)) :
    ∀ tf, k ∉ pf.map Prod.fst →
      lookupKey k (mergeFields tf pf) = lookupKey k tf := by
  induction pf with
  | nil => intro tf _; simp [mergeFields]
  | cons hd rest ih =>
      intro tf hk
      obtain ⟨k1, v1⟩ := hd
      simp only [List.map_cons, List.mem_cons, not_or] at hk
      obtain ⟨hne, hrest⟩ := hk
      have hne1 : k1 ≠ k := fun h => hne h.symm
      by_cases hv : isNull v1 = true
      · rw [mergeFields, if_pos hv, ih _ hrest, lookupKey_removeKey, if_neg hne1]
      · rw [mergeFields, if_neg (by simpa using hv), ih _ hrest, lookupKey_setKey,
          if_neg hne1]

/-- RFC 7396, deletion: a `null` member of the patch removes that key from
the result (when the patch object binds the key once). -/
theorem lookupKey_mergeFields_null (k : String) (pf : List (String × Json)) :
    ∀ tf, (pf.map Prod.fst).Nodup → lookupKey k pf = some Json.null →
      lookupKey k (mergeFields tf pf) = none := by
  induction pf with
  | nil => intro tf _ h; simp [lookupKey] at h
  | cons hd rest ih =>
      intro tf hnd hl
      obtain ⟨k1, v1⟩ := hd
      simp only [List.map_cons, List.nodup_cons] at hnd
      obtain ⟨hk1, hrest⟩ := hnd
      by_cases h1 : k1 = k
      · subst h1
        rw [lookupKey, if_pos rfl] at hl
        injection hl with hv
        subst hv
        rw [show mergeFields tf ((k1, Json.null) :: rest)
              = mergeFields (removeKey k1 tf) rest from rfl,
          lookupKey_mergeFields_of_notMem _ _ _ hk1, lookupKey_removeKey, if_pos rfl]
      · rw [lookupKey, if_neg h1] at hl
        by_cases hv : isNull v1 = true
        · rw [mergeFields, if_pos hv]; exact ih _ hrest hl
        · rw [mergeFields, if_neg (by simpa using hv)]; exact ih _ hrest hl

/-- RFC 7396, replacement: a non-`null` member of the patch replaces the
target's member by the recursive merge (when the patch object binds the key
once). -/
theorem lookupKey_mergeFields_some (k : String) (pf : List (String × Json)) :
    ∀ tf v, (pf.map Prod.fst).Nodup → lookupKey k pf = some v → v ≠ Json.null →
      lookupKey k (mergeFields tf pf) =
        some (mergePatch ((lookupKey k tf).getD Json.null) v) := by
  induction pf with
  | nil => intro tf v _ h _; simp [lookupKey] at h
  | cons hd rest ih =>
      intro tf v hnd hl hv
      obtain ⟨k1, v1⟩ := hd
      simp only [List.map_cons, List.nodup_cons] at hnd
      obtain ⟨hk1, hrest⟩ := hnd
      by_cases h1 : k1 = k
      · subst h1
        rw [lookupKey, if_pos rfl] at hl
        have hv1 : v1 = v := by injection hl
        subst hv1
        have hnn : isNull v1 = false := (isNull_eq_false_iff v1).mpr hv
        rw [mergeFields, if_neg (by simp [hnn]),
          lookupKey_mergeFields_of_notMem _ _ _ hk1, lookupKey_setKey, if_pos rfl]
      · rw [lookupKey, if_neg h1] at hl
        have hne1 : k1 ≠ k := h1
        by_cases hz : isNull v1 = true
        · rw [mergeFields, if_pos hz, ih _ v hrest hl hv, lookupKey_removeKey,
            if_neg hne1]
        · rw [mergeFields, if_neg (by simpa using hz), ih _ v hrest hl hv,
            lookupKey_setKey, if_neg hne1]

/-- RFC 7396, untouched keys: a key the patch does not mention keeps the
target's binding. -/
theorem lookupKey_mergeFields_none (k : String) (pf : List (String × Json)) :
    ∀ tf, lookupKey k pf = none →
      lookupKey k (mergeFields tf pf) = lookupKey k tf := by
  induction pf with
  | nil => intro tf _; simp [mergeFields]
  | cons hd rest ih =>
      intro tf hl
      obtain ⟨k1, v1⟩ := hd
      by_cases h1 : k1 = k
      · subst h1; rw [lookupKey, if_pos rfl] at hl; exact absurd hl (by simp)
      · rw [lookupKey, if_neg h1] at hl
        have hne1 : k1 ≠ k := h1
        by_cases hz : isNull v1 = true
        · rw [mergeFields, if_pos hz, ih _ hl, lookupKey_removeKey, if_neg hne1]
        · rw [mergeFields, if_neg (by simpa using hz), ih _ hl, lookupKey_setKey,
            if_neg hne1]

/-- C2: for a stored webhook whose body is JSON-ish (content type contains
"application/json" or the first non-whitespace byte is an object or array
opener), `ReplayByID` with a non-blank merge patch applies RFC 7396
semantics to the body it sends: the sent body is the rendered RFC 7396
merge of the parsed body (an empty body counting as `{}`) with the parsed
patch, under which a `null` member of the patch deletes that key, a
non-`null` member replaces it by the recursive merge, arrays replace the
target wholesale, and in particular patch `{"a":null}` against body
`{"a":1,"b":2}` produces `{"b":2}`. -/
theorem replayBody_jsonish_applies_rfc7396
    (wh : Webhook) (patch : String) (jb jp : Json)
    (tf pf : List (String × Json)) (k : String)
    (hp : strTrim patch ≠ "")
    (hj : strContains (strToLower (firstHeader wh.Headers "Content-Type"))
            "application/json" = true
          ∨ looksLikeJSON wh.Body = true)
    (hb : parseJson (if wh.Body.length = 0 then "\x7b\x7d" else wh.Body) = some jb)
    (hpp : parseJson patch = some jp)
    (hnd : (pf.map Prod.fst).Nodup) :
    replayBody wh patch = Except.ok (render (mergePatch jb jp))
    ∧ (lookupKey k pf = some Json.null → lookupKey k (mergeFields tf pf) = none)
    ∧ (∀ v, lookupKey k pf = some v → v ≠ Json.null →
        lookupKey k (mergeFields tf pf) =
          some (mergePatch ((lookupKey k tf).getD Json.null) v))
    ∧ (∀ t xs, mergePatch t (Json.arr xs) = Json.arr xs)
    ∧ applyMergePatchIfJSON [("Content-Type", ["application/json"])]
        "\x7b\"a\":1,\"b\":2\x7d" "\x7b\"a\":null\x7d" = Except.ok "\x7b\"b\":2\x7d" := by
  refine ⟨?_, fun h => lookupKey_mergeFields_null k pf tf hnd h,
    fun v hv hnn => lookupKey_mergeFields_some k pf tf v hnd hv hnn,
    fun t xs => by cases t <;> rfl, rfl⟩
  have hcond : (!strContains (strToLower (firstHeader wh.Headers "Content-Type"))
      "application/json" && !looksLikeJSON wh.Body) = false := by
    rcases hj with h | h <;> simp [h]
  rw [replayBody, if_pos hp]
  simp only [applyMergePatchIfJSON, hcond, Bool.false_eq_true, if_false, hb, hpp]

/-- Witness for C2: the spec's own example, body `{"a":1,"b":2}` with patch
`{"a":null}`, replayed through a JSON content type. -/
theorem replayBody_jsonish_applies_rfc7396_witness :
    replayBody
        { ID := "w1", CreatedAt := 1, Method := "POST", Path := "/h", Query := "",
          Headers := [("Content-Type", ["application/json"])],
          Body := "\x7b\"a\":1,\"b\":2\x7d", Provider := "", EventType := "",
          Signature := "", StatusCode := none, ResponseMS := 0, BodyText := "" }
        "\x7b\"a\":null\x7d"
      = Except.ok (render (mergePatch
          (Json.obj [("a", Json.num 1), ("b", Json.num 2)])
          (Json.obj [("a", Json.null)]))) :=
  (replayBody_jsonish_applies_rfc7396
    { ID := "w1", CreatedAt := 1, Method := "POST", Path := "/h", Query := "",
      Headers := [("Content-Type", ["application/json"])],
      Body := "\x7b\"a\":1,\"b\":2\x7d", Provider := "", EventType := "",
      Signature := "", StatusCode := none, ResponseMS := 0, BodyText := "" }
    "\x7b\"a\":null\x7d"
    (Json.obj [("a", Json.num 1), ("b", Json.num 2)])
    (Json.obj [("a", Json.null)])
    [("a", Json.num 1), ("b", Json.num 2)] [("a", Json.null)] "a"
    (by decide) (Or.inl (by decide)) rfl rfl (by decide)).1

/-- C8: for a stored webhook whose body is not JSON-ish (content type does
not contain "application/json" and the first non-whitespace byte is neither
an object nor an array opener), the body `ReplayByID` sends is the stored
body unchanged and no patch error is reported, whatever the patch argument
is — malformed patches included. -/
theorem replayBody_nonjson_body_unchanged
    (wh : Webhook) (patch : String)
    (hct : strContains (strToLower (firstHeader wh.Headers "Content-Type"))
      "application/json" = false)
    (hlj : looksLikeJSON wh.Body = false) :
    replayBody wh patch = Except.ok wh.Body := by
  by_cases hp : strTrim patch ≠ ""
  · rw [replayBody, if_pos hp]
    simp [applyMergePatchIfJSON, hct, hlj]
  · rw [replayBody, if_neg hp]

/-- Witness for C8: a plain-text body replayed with a malformed non-blank
patch comes through byte-for-byte with no error. -/
theorem replayBody_nonjson_body_unchanged_witness :
    replayBody
        { ID := "w2", CreatedAt := 1, Method := "POST", Path := "/h", Query := "",
          Headers := [("Content-Type", ["text/plain"])], Body := "hello world",
          Provider := "", EventType := "", Signature := "", StatusCode := none,
          ResponseMS := 0, BodyText := "" }
        "\x7bmalformed"
      = Except.ok "hello world" :=
  replayBody_nonjson_body_unchanged
    { ID := "w2", CreatedAt := 1, Method := "POST", Path := "/h", Query := "",
      Headers := [("Content-Type", ["text/plain"])], Body := "hello world",
      Provider := "", EventType := "", Signature := "", StatusCode := none,
      ResponseMS := 0, BodyText := "" }
    "\x7bmalformed" (by decide) (by decide)

/-- Embedding of Go `http.Header.Get`: the first value stored under the
case-insensitive key, or "" when the key is absent or has no values. -/
def hGet (h : List (String × List String)) (k : String) : String :=
  match h.find? (fun kv => strToLower kv.1 == strToLower k) with
  | some kv => kv.2.headD ""
  | none => ""

/-- Embedding of the provider package's `firstNonEmpty`: the first argument
whose trimmed form is non-empty (returned untrimmed), else "". -/
def firstNonEmpty (xs : List String) : String :=
  (xs.find? (fun x => strTrim x != "")).getD ""

/-- Embedding of the provider package's `jsonEventType`: decode the body as
a JSON object and return the string under `key`; an empty body, a body that
is not a JSON object, a missing key or a non-string value all give "".
(Go's map keeps the last duplicate key where this list keeps the first; no
exercised payload has duplicate keys.) -/
def jsonEventType (body : String) (key : String) : String :=
  if body.length = 0 then ""
  else
    match parseJson body with
    | some (Json.obj fields) =>
        match lookupKey key fields with
        | some (Json.str s) => s
        | _ => ""
    | _ => ""

/-- Embedding of `provider.Detect`: Stripe's signature header is checked
first, then GitHub's event header; the first match wins.  An unmatched
request is "unknown" with the first non-empty value among the fixed list of
known signature headers. -/
def Detect (h : List (String × List String)) (body : String) :
    String × String × String :=
  let sig := hGet h "Stripe-Signature"
  if strTrim sig ≠ "" then ("stripe", jsonEventType body "type", sig)
  else
    let ev := hGet h "X-GitHub-Event"
    if strTrim ev ≠ "" then ("github", ev, hGet h "X-Hub-Signature-256")
    else ("unknown", "",
      firstNonEmpty [hGet h "X-Hub-Signature-256", hGet h "X-Hub-Signature",
        hGet h "X-Slack-Signature", hGet h "X-Shopify-Hmac-SHA256",
        hGet h "X-Twilio-Signature"])

/-- C9, counterexample: a GitHub-matched request takes its event type from
the `X-GitHub-Event` header, not from the body — against a malformed
(unparseable) JSON body the event type is "push", not the empty string the
claim requires for every matched provider. -/
theorem detect_malformed_body_event_cex :
    Detect [("X-Github-Event", ["push"])] "not json" = ("github", "push", "")
    ∧ parseJson "not json" = none
    ∧ ("push" : String) ≠ "" := by
  exact ⟨rfl, rfl, by decide⟩

/-- C9 (amended): `Detect` checks the provider signature headers in a fixed
order — Stripe first, then GitHub — and the first match wins.  Stripe's
event type is extracted defensively from the body (an absent or malformed
JSON body yields "" and never an error); GitHub's event type is the
`X-GitHub-Event` header value itself; with no match the provider is
"unknown" with the first non-empty known signature header surfaced. -/
theorem detect_fixed_order_first_match
    (h : List (String × List String)) (body : String) :
    (strTrim (hGet h "Stripe-Signature") ≠ "" →
      Detect h body
        = ("stripe", jsonEventType body "type", hGet h "Stripe-Signature"))
    ∧ (strTrim (hGet h "Stripe-Signature") = "" →
       strTrim (hGet h "X-GitHub-Event") ≠ "" →
      Detect h body
        = ("github", hGet h "X-GitHub-Event", hGet h "X-Hub-Signature-256"))
    ∧ (strTrim (hGet h "Stripe-Signature") = "" →
       strTrim (hGet h "X-GitHub-Event") = "" →
      Detect h body
        = ("unknown", "", firstNonEmpty [hGet h "X-Hub-Signature-256",
            hGet h "X-Hub-Signature", hGet h "X-Slack-Signature",
            hGet h "X-Shopify-Hmac-SHA256", hGet h "X-Twilio-Signature"]))
    ∧ (parseJson body = none → jsonEventType body "type" = "")
    ∧ jsonEventType "" "type" = "" := by
  refine ⟨fun hs => ?_, fun hs hg => ?_, fun hs hg => ?_, fun hpj => ?_, rfl⟩
  · rw [Detect, if_pos hs]
  · rw [Detect, if_neg (by simpa using hs), if_pos hg]
  · rw [Detect, if_neg (by simpa using hs), if_neg (by simpa using hg)]
  · by_cases hz : body.length = 0
    · rw [jsonEventType, if_pos hz]
    · rw [jsonEventType, if_neg hz, hpj]

/-- FTS5 token characters, approximating the default `unicode61` tokeniser
on the ASCII payloads the program indexes: alphanumeric characters form
tokens, everything else separates them. -/
def isTokenChar (c : Char) : Bool := c.isAlphanum

/-- Accumulator pass of the tokeniser (`cur` holds the current token
reversed). -/
def tokensAux : List Char → List Char → List String
  | [], cur => if cur.isEmpty then [] else [String.mk cur.reverse]
  | c :: cs, cur =>
      if isTokenChar c then tokensAux cs (c :: cur)
      else if cur.isEmpty then tokensAux cs cur
      else String.mk cur.reverse :: tokensAux cs []

/-- The token sequence FTS5's tokeniser produces for a text (case-folded,
split at non-token characters). -/
def textTokens (s : String) : List String := tokensAux (strToLower s).data []

/-- Tokens of the FTS5 query language (the sub-grammar this embedding
covers: strings, barewords, and the operator punctuation the injection
claim names). -/
inductive FtsTok where
  | str (s : String)
  | word (s : String)
  | star
  | colon
  | lparen
  | rparen
  | comma
deriving DecidableEq

/-- Lex an FTS5 string after its opening quote; `""` is an escaped quote. -/
def ftsLexStr : List Char → Option (List Char × List Char)
  | [] => none
  | c :: rest =>
    if c = '"' then
      match rest with
      | r1 :: rest2 =>
          if r1 = '"' then
            match ftsLexStr rest2 with
            | some (s, r) => some ('"' :: s, r)
            | none => none
          else some ([], rest)
      | [] => some ([], rest)
    else
      match ftsLexStr rest with
      | some (s, r) => some (c :: s, r)
      | none => none

/-- FTS5 bareword characters: token characters and the underscore. -/
def isBareChar (c : Char) : Bool := isTokenChar c || c == '_'

/-- Take a maximal bareword run. -/
def takeBareword : List Char → (List Char × List Char)
  | [] => ([], [])
  | c :: cs =>
    if isBareChar c then
      let (w, r) := takeBareword cs
      (c :: w, r)
    else ([], c :: cs)

/-- Lexer for the covered FTS5 query sub-grammar; anything outside it is a
syntax error (`none`), a conservative stand-in for FTS5's own error. -/
def ftsLex : Nat → List Char → Option (List FtsTok)
  | _, [] => some []
  | 0, _ :: _ => none
  | fuel + 1, c :: cs =>
    if c.isWhitespace then ftsLex fuel cs
    else if c = '"' then
      match ftsLexStr cs with
      | some (s, r) =>
          match ftsLex fuel r with
          | some ts => some (FtsTok.str (String.mk s) :: ts)
          | none => none
      | none => none
    else if c = '*' then (ftsLex fuel cs).map (fun ts => FtsTok.star :: ts)
    else if c = ':' then (ftsLex fuel cs).map (fun ts => FtsTok.colon :: ts)
    else if c = '(' then (ftsLex fuel cs).map (fun ts => FtsTok.lparen :: ts)
    else if c = ')' then (ftsLex fuel cs).map (fun ts => FtsTok.rparen :: ts)
    else if c = ',' then (ftsLex fuel cs).map (fun ts => FtsTok.comma :: ts)
    else if isBareChar c then
      match ftsLex fuel (takeBareword cs).2 with
      | some ts => some (FtsTok.word (String.mk (c :: (takeBareword cs).1)) :: ts)
      | none => none
    else none

/-- Queries of the covered FTS5 sub-grammar: phrases (with an optional
prefix star), the boolean operators OR / AND (implicit or explicit) / NOT,
column filters, and grouping. -/
inductive FtsExpr where
  | phrase (toks : List String) (pre : Bool)
  | seqAnd (a b : FtsExpr)
  | seqOr (a b : FtsExpr)
  | seqNot (a b : FtsExpr)
  | colFilter (col : String) (e : FtsExpr)
deriving DecidableEq

/-- The phrase a string or bareword token denotes: its tokenised form. -/
def phraseOf (s : String) (pre : Bool) : FtsExpr := FtsExpr.phrase (textTokens s) pre

mutual

/-- Primary expressions: quoted phrase, bareword term (keywords excluded),
column filter, parenthesised group; a trailing `*` makes a prefix query. -/
def parsePrimary : Nat → List FtsTok → Option (FtsExpr × List FtsTok)
  | 0, _ => none
  | fuel + 1, ts =>
    match ts with
    | FtsTok.str s :: FtsTok.star :: rest => some (phraseOf s true, rest)
    | FtsTok.str s :: rest => some (phraseOf s false, rest)
    | FtsTok.word w :: FtsTok.colon :: rest =>
        match parsePrimary fuel rest with
        | some (e, r) => some (FtsExpr.colFilter w e, r)
        | none => none
    | FtsTok.word w :: rest =>
        if w = "OR" ∨ w = "AND" ∨ w = "NOT" then none
        else
          match rest with
          | FtsTok.star :: rest2 => some (phraseOf w true, rest2)
          | _ => some (phraseOf w false, rest)
    | FtsTok.lparen :: rest =>
        match parseOrExpr fuel rest with
        | some (e, FtsTok.rparen :: r) => some (e, r)
        | _ => none
    | _ => none

/-- `NOT` chains over primaries (FTS5's tightest boolean operator). -/
def parseNotExpr : Nat → List FtsTok → Option (FtsExpr × List FtsTok)
  | 0, _ => none
  | fuel + 1, ts =>
    match parsePrimary fuel ts with
    | some (a, r) => parseNotRest fuel a r
    | none => none

/-- Remaining `NOT` operands. -/
def parseNotRest : Nat → FtsExpr → List FtsTok → Option (FtsExpr × List FtsTok)
  | 0, _, _ => none
  | fuel + 1, a, ts =>
    match ts with
    | FtsTok.word "NOT" :: rest =>
        match parsePrimary fuel rest with
        | some (b, r) => parseNotRest fuel (FtsExpr.seqNot a b) r
        | none => none
    | _ => some (a, ts)

/-- `AND` chains, the keyword optional (juxtaposition is implicit AND). -/
def parseAndExpr : Nat → List FtsTok → Option (FtsExpr × List FtsTok)
  | 0, _ => none
  | fuel + 1, ts =>
    match parseNotExpr fuel ts with
    | some (a, r) => parseAndRest fuel a r
    | none => none

/-- Remaining `AND` operands (explicit keyword or juxtaposition). -/
def parseAndRest : Nat → FtsExpr → List FtsTok → Option (FtsExpr × List FtsTok)
  | 0, _, _ => none
  | fuel + 1, a, ts =>
    match ts with
    | FtsTok.word "AND" :: rest =>
        match parseNotExpr fuel rest with
        | some (b, r) => parseAndRest fuel (FtsExpr.seqAnd a b) r
        | none => none
    | _ =>
        match parseNotExpr fuel ts with
        | some (b, r) => parseAndRest fuel (FtsExpr.seqAnd a b) r
        | none => some (a, ts)

/-- `OR` chains (loosest). -/
def parseOrExpr : Nat → List FtsTok → Option (FtsExpr × List FtsTok)
  | 0, _ => none
  | fuel + 1, ts =>
    match parseAndExpr fuel ts with
    | some (a, r) => parseOrRest fuel a r
    | none => none

/-- Remaining `OR` operands. -/
def parseOrRest : Nat → FtsExpr → List FtsTok → Option (FtsExpr × List FtsTok)
  | 0, _, _ => none
  | fuel + 1, a, ts =>
    match ts with
    | FtsTok.word "OR" :: rest =>
        match parseAndExpr fuel rest with
        | some (b, r) => parseOrRest fuel (FtsExpr.seqOr a b) r
        | none => none
    | _ => some (a, ts)

end

/-- Parse a whole MATCH argument: lex, parse one query, accept only if all
tokens are consumed. -/
def ftsParseQuery (q : String) : Option FtsExpr :=
  match ftsLex (q.data.length + 1) q.data with
  | none => none
  | some ts =>
    match parseOrExpr (3 * ts.length + 9) ts with
    | some (e, []) => some e
    | _ => none

/-- Does the (possibly prefix-final) phrase start at the head of the token
list?  The last phrase token of a prefix query only needs to be a prefix of
the text token. -/
def startsWithSeqPre : List String → List String → Bool
  | [], _ => true
  | [p], b :: _ => startsWithSeq p.data b.data
  | _ :: _, [] => false
  | p :: ps, b :: bs => p == b && startsWithSeqPre ps bs

/-- Does the prefix-final phrase occur anywhere in the token list? -/
def hasSubSeqPre (sub : List String) : List String → Bool
  | [] => startsWithSeqPre sub []
  | b :: bs => startsWithSeqPre sub (b :: bs) || hasSubSeqPre sub bs

/-- Evaluate a query against the token sequence of one document (the single
`body_text` column of `webhooks_fts`).  A phrase matches where its token
sequence occurs contiguously; a phrase with no tokens matches nothing. -/
def evalFts : FtsExpr → List String → Bool
  | FtsExpr.phrase ph false, ts => !ph.isEmpty && hasSubSeq ph ts
  | FtsExpr.phrase ph true, ts => !ph.isEmpty && hasSubSeqPre ph ts
  | FtsExpr.seqAnd a b, ts => evalFts a ts && evalFts b ts
  | FtsExpr.seqOr a b, ts => evalFts a ts || evalFts b ts
  | FtsExpr.seqNot a b, ts => evalFts a ts && !evalFts b ts
  | FtsExpr.colFilter c e, ts => c == "body_text" && evalFts e ts

/-- `body_text MATCH q` for one row, in the covered sub-grammar. -/
def ftsQueryMatch (q : String) (text : String) : Bool :=
  match ftsParseQuery q with
  | some e => evalFts e (textTokens text)
  | none => false

/-- Embedding of `strings.ReplaceAll(q, quote, quotequote)`: double every
double quote. -/
def escQuotes : List Char → List Char
  | [] => []
  | c :: rest => if c = '"' then '"' :: '"' :: escQuotes rest else c :: escQuotes rest

/-- Embedding of `sanitizeFTSQuery`: escape the double quotes and wrap the
whole query in one pair of quotes, making it a single FTS5 phrase string. -/
def sanitizeFTSQuery (q : String) : String :=
  String.mk ('"' :: (escQuotes q.data ++ ['"']))

/-- One stored row of the `webhooks` table (per `Store.migrate`'s schema).
`rowid` is SQLite's implicit integer key, the one the FTS5 external-content
index references.  Nullable columns are `Option`.  The `headers` TEXT
column holds the `encoding/json` encoding of the header map, which
round-trips `map[string][]string` exactly, so the embedding keeps the map
itself. -/
structure Row where
  rowid : Nat
  id : String
  created_at : Int
  method : String
  path : String
  query : Option String
  headers : List (String × List String)
  body : String
  provider : Option String
  event_type : Option String
  signature : Option String
  status_code : Option Int
  response_ms : Int
  body_text : Option String
deriving DecidableEq

/-- The store's database state: the `webhooks` table in insertion order
(`nextRowid` fresh) and the `webhooks_fts` index rows `(rowid, body_text)`
that the `webhooks_ai` / `webhooks_ad` triggers keep in step with it. -/
structure StoreState where
  nextRowid : Nat
  rows : List Row
  fts : List (Nat × Option String)
deriving DecidableEq

/-- The state `Store.migrate` creates: empty table, empty index. -/
def emptyStore : StoreState := { nextRowid := 1, rows := [], fts := [] }

/-- Embedding of `nullIfEmpty`: a blank string is stored as SQL NULL. -/
def nullIfEmpty (s : String) : Option String :=
  if strTrim s = "" then none else some s

/-- `store.DefaultLimit`. -/
def DefaultLimit : Int := 20

/-- `store.MaxLimit`. -/
def MaxLimit : Int := 500

/-- The limit clamp shared by `ListSummaries` and `SearchSummaries`:
out-of-range requests fall back to the default. -/
def clampLimit (l : Int) : Int := if l ≤ 0 ∨ l > MaxLimit then DefaultLimit else l

/-- Arguments of `Store.InsertWebhook` (`store.InsertParams`). -/
structure InsertParams where
  ID : String
  CreatedAt : Int
  Method : String
  Path : String
  Query : String
  Headers : List (String × List String)
  Body : String
  Provider : String
  EventType : String
  Signature : String
  StatusCode : Option Int
  ResponseMS : Int
  BodyText : String
deriving DecidableEq

/-- The row one successful `InsertWebhook` appends (`now` standing for
`time.Now().UnixMilli()`, used only when the caller left `CreatedAt`
zero). -/
def insertedRow (now : Int) (st : StoreState) (p : InsertParams) : Row :=
  { rowid := st.nextRowid, id := p.ID,
    created_at := if p.CreatedAt = 0 then now else p.CreatedAt,
    method := p.Method, path := p.Path, query := nullIfEmpty p.Query,
    headers := p.Headers, body := p.Body,
    provider := nullIfEmpty p.Provider, event_type := nullIfEmpty p.EventType,
    signature := nullIfEmpty p.Signature, status_code := p.StatusCode,
    response_ms := p.ResponseMS, body_text := nullIfEmpty p.BodyText }

/-- Embedding of `Store.InsertWebhook`: validation, then one INSERT whose
`webhooks_ai` trigger adds the index entry in the same logical mutation; a
duplicate id violates the primary key and surfaces as a storage error. -/
def insertWebhook (now : Int) (st : StoreState) (p : InsertParams) :
    Except String StoreState :=
  if strTrim p.ID = "" then Except.error "missing id"
  else if strTrim p.Method = "" ∨ strTrim p.Path = "" then
    Except.error "missing method/path"
  else if st.rows.any (fun r => r.id == p.ID) then
    Except.error "constraint failed: webhooks.id"
  else
    Except.ok { nextRowid := st.nextRowid + 1,
                rows := st.rows ++ [insertedRow now st p],
                fts := st.fts ++ [(st.nextRowid, nullIfEmpty p.BodyText)] }

/-- How `Store.GetWebhook` materialises a row: NULL columns come back as
Go zero values through `sql.NullString`. -/
def webhookOfRow (r : Row) : Webhook :=
  { ID := r.id, CreatedAt := r.created_at, Method := r.method, Path := r.path,
    Query := r.query.getD "", Headers := r.headers, Body := r.body,
    Provider := r.provider.getD "", EventType := r.event_type.getD "",
    Signature := r.signature.getD "", StatusCode := r.status_code,
    ResponseMS := r.response_ms, BodyText := r.body_text.getD "" }

/-- Embedding of `Store.GetWebhook`: trim the id, reject blank, single-row
lookup by id, not-found error when no row matches. -/
def getWebhook (st : StoreState) (id : String) : Except String Webhook :=
  let id1 := strTrim id
  if id1 = "" then Except.error "empty id"
  else
    match st.rows.find? (fun r => r.id == id1) with
    | some r => Except.ok (webhookOfRow r)
    | none => Except.error ("not found: " ++ id1)

/-- Embedding of `Store.DeleteWebhook`: DELETE by id (the `webhooks_ad`
trigger drops the matching index entries), not-found when nothing was
deleted. -/
def deleteWebhook (st : StoreState) (id : String) : Except String StoreState :=
  let id1 := strTrim id
  if id1 = "" then Except.error "empty id"
  else
    let deleted := st.rows.filter (fun r => r.id == id1)
    if deleted.isEmpty then Except.error ("not found: " ++ id1)
    else Except.ok
      { st with
        rows := st.rows.filter (fun r => !(r.id == id1)),
        fts := st.fts.filter (fun e => !(deleted.any (fun r => r.rowid == e.1))) }

/-- Arguments of `Store.DeleteByFilter` (`store.DeleteFilter`); `OlderThan`
is a duration in milliseconds, active when positive. -/
structure DeleteFilter where
  OlderThan : Int
  Provider : String
  StatusCode : Option Int
deriving DecidableEq

/-- The WHERE clause `DeleteByFilter` builds, evaluated on one row
(`nowMs` standing for `time.Now().UnixMilli()`); SQL `NULL = x` is no
match. -/
def deleteFilterMatches (nowMs : Int) (f : DeleteFilter) (r : Row) : Bool :=
  (decide (f.OlderThan ≤ 0) || decide (r.created_at < nowMs - f.OlderThan)) &&
  (strTrim f.Provider == "" || r.provider == some f.Provider) &&
  (match f.StatusCode with
   | none => true
   | some sc => r.status_code == some sc)

/-- Embedding of `Store.DeleteByFilter`: an empty filter is rejected before
any deletion; otherwise delete the matching rows (triggers dropping their
index entries) and return the count. -/
def deleteByFilter (nowMs : Int) (st : StoreState) (f : DeleteFilter) :
    Except String (Nat × StoreState) :=
  if f.OlderThan ≤ 0 ∧ strTrim f.Provider = "" ∧ f.StatusCode = none then
    Except.error "at least one filter required for bulk delete"
  else
    let deleted := st.rows.filter (deleteFilterMatches nowMs f)
    Except.ok (deleted.length,
      { st with
        rows := st.rows.filter (fun r => !(deleteFilterMatches nowMs f r)),
        fts := st.fts.filter (fun e => !(deleted.any (fun r => r.rowid == e.1))) })

/-- Arguments of `Store.ListSummaries` (`store.ListFilter`); the time-range
ends are already converted to epoch milliseconds as the query builder
does. -/
structure ListFilter where
  Limit : Int
  Provider : String
  StatusCode : Option Int
  FromMs : Option Int
  ToMs : Option Int
deriving DecidableEq

/-- The WHERE clause `ListSummaries` builds, evaluated on one row. -/
def listFilterMatches (f : ListFilter) (r : Row) : Bool :=
  (strTrim f.Provider == "" || r.provider == some f.Provider) &&
  (match f.StatusCode with
   | none => true
   | some sc => r.status_code == some sc) &&
  (match f.FromMs with
   | none => true
   | some t => decide (r.created_at ≥ t)) &&
  (match f.ToMs with
   | none => true
   | some t => decide (r.created_at ≤ t))

/-- A list/search result row (`store.WebhookSummary`). -/
structure WebhookSummary where
  ID : String
  CreatedAt : Int
  Method : String
  Path : String
  Provider : String
  EventType : String
  StatusCode : Option Int
  ResponseMS : Int
deriving DecidableEq

/-- How the summary queries materialise a row. -/
def summaryOfRow (r : Row) : WebhookSummary :=
  { ID := r.id, CreatedAt := r.created_at, Method := r.method, Path := r.path,
    Provider := r.provider.getD "", EventType := r.event_type.getD "",
    StatusCode := r.status_code, ResponseMS := r.response_ms }

/-- Weakly descending by `created_at`. -/
def sortedByCreatedDesc : List Row → Bool
  | [] => true
  | [_] => true
  | a :: b :: rest =>
      decide (b.created_at ≤ a.created_at) && sortedByCreatedDesc (b :: rest)

/-- Weakly descending by `CreatedAt`, on summaries. -/
def sortedByCreatedDescSumm : List WebhookSummary → Bool
  | [] => true
  | [_] => true
  | a :: b :: rest =>
      decide (b.CreatedAt ≤ a.CreatedAt) && sortedByCreatedDescSumm (b :: rest)

/-- Embedding of `Store.ListSummaries`'s SQL contract: `SELECT … WHERE
<filter> ORDER BY created_at DESC LIMIT <clamped>`.  SQL leaves the
relative order of rows with equal `created_at` unspecified — the query has
no tiebreak column — so the embedding is a relation: the result is the
clamped-limit prefix of SOME descending arrangement of the matching
rows. -/
def listSummariesResult (st : StoreState) (f : ListFilter)
    (out : List WebhookSummary) : Prop :=
  ∃ perm : List Row,
    (st.rows.filter (listFilterMatches f)).Perm perm
    ∧ sortedByCreatedDesc perm = true
    ∧ out = (perm.take (clampLimit f.Limit).toNat).map summaryOfRow

/-- Embedding of `Store.SearchSummaries`: trim and reject a blank query,
clamp the limit, sanitize the query, join the FTS5 matches back to the
table, order by `created_at` descending and truncate.  (As in
`ListSummaries` the SQL leaves tie order unspecified; this function picks
the table-order arrangement — every property proved about search below is
independent of that choice.) -/
def searchSummaries (st : StoreState) (query : String) (limit : Int) :
    Except String (List WebhookSummary) :=
  let q := strTrim query
  if q = "" then Except.error "empty search query"
  else
    let sq := sanitizeFTSQuery q
    let matched := st.fts.filter (fun e => ftsQueryMatch sq (e.2.getD ""))
    let joined := st.rows.filter (fun r => matched.any (fun e => e.1 == r.rowid))
    Except.ok
      (((joined.insertionSort (fun a b => b.created_at ≤ a.created_at)).take
          (clampLimit limit).toNat).map summaryOfRow)

/-- The index-consistency invariant the FTS5 triggers maintain: every index
entry points at a live row. -/
def ftsNoOrphans (st : StoreState) : Bool :=
  st.fts.all (fun e => st.rows.any (fun r => r.rowid == e.1))

/-- The escaped query followed by the closing quote lexes back to exactly
the original characters, consuming everything: `""` escaping admits no way
to break out of the string. -/
theorem ftsLexStr_escQuotes (l : List Char) :
    ftsLexStr (escQuotes l ++ ['"']) = some (l, []) := by
  induction l with
  | nil => rfl
  | cons c rest ih =>
      by_cases hc : c = '"'
      · subst hc
        simp [escQuotes, ftsLexStr, ih]
      · simp only [escQuotes, if_neg hc, List.cons_append]
        rw [ftsLexStr.eq_def]
        simp only [if_neg hc]
        rw [ih]

/-- The sanitized query lexes to a single string token carrying the whole
original query text. -/
theorem ftsLex_sanitize (q : String) :
    ftsLex ((sanitizeFTSQuery q).data.length + 1) (sanitizeFTSQuery q).data
      = some [FtsTok.str q] := by
  have hdata : (sanitizeFTSQuery q).data = '"' :: (escQuotes q.data ++ ['"']) := rfl
  rw [hdata, ftsLex, if_neg (by decide), if_pos rfl, ftsLexStr_escQuotes]
  rfl

/-- C6 parse shape: whatever reserved operator syntax the query contains,
its sanitized form parses as one literal phrase over the query's tokens —
never as an operator expression. -/
theorem ftsParseQuery_sanitize (q : String) :
    ftsParseQuery (sanitizeFTSQuery q) = some (FtsExpr.phrase (textTokens q) false) := by
  rw [ftsParseQuery, ftsLex_sanitize]
  rfl

/-- Matching the sanitized query is exactly literal containment of the
query's token sequence (false when the query has no tokens at all). -/
theorem ftsQueryMatch_sanitize (q text : String) :
    ftsQueryMatch (sanitizeFTSQuery q) text
      = (!(textTokens q).isEmpty && hasSubSeq (textTokens q) (textTokens text)) := by
  rw [ftsQueryMatch, ftsParseQuery_sanitize]
  rfl

/-- Every summary `SearchSummaries` returns comes from a live row joined to
an index entry that matches the sanitized query. -/
theorem searchSummaries_mem (st : StoreState) (q : String) (limit : Int)
    (res : List WebhookSummary) (hok : searchSummaries st q limit = Except.ok res)
    (s : WebhookSummary) (hs : s ∈ res) :
    ∃ r, r ∈ st.rows ∧ summaryOfRow r = s
      ∧ ∃ bt, (r.rowid, bt) ∈ st.fts
        ∧ ftsQueryMatch (sanitizeFTSQuery (strTrim q)) (bt.getD "") = true := by
  by_cases hq : strTrim q = ""
  · simp [searchSummaries, hq] at hok
  · rw [searchSummaries] at hok
    simp only [if_neg hq] at hok
    injection hok with hres
    subst hres
    obtain ⟨r, hrtake, hrs⟩ := List.mem_map.mp hs
    have hrsort := List.mem_of_mem_take hrtake
    have hrjoin : r ∈ st.rows.filter (fun r =>
        (st.fts.filter (fun e =>
          ftsQueryMatch (sanitizeFTSQuery (strTrim q)) (e.2.getD ""))).any
            (fun e => e.1 == r.rowid)) :=
      (List.perm_insertionSort _ _).mem_iff.mp hrsort
    obtain ⟨hrrows, hany⟩ := List.mem_filter.mp hrjoin
    obtain ⟨e, hefts, hebeq⟩ := List.any_eq_true.mp hany
    obtain ⟨heIn, hematch⟩ := List.mem_filter.mp hefts
    have hrowid : e.1 = r.rowid := by simpa using hebeq
    refine ⟨r, hrrows, hrs, e.2, ?_, by simpa using hematch⟩
    have : e = (r.rowid, e.2) := by
      rw [← hrowid]
    rw [← this]
    exact heIn

/-- C6: reserved FTS5 operator syntax inside a search query is always
treated as literal text, never as an operator: the sanitized query parses
as one literal phrase whatever the query contains; matching it is exactly
literal containment of the query's token sequence; and every row
`SearchSummaries` returns carries indexed text that literally contains the
(trimmed) query's token sequence. -/
theorem searchSummaries_literal_only (q : String) :
    ftsParseQuery (sanitizeFTSQuery q) = some (FtsExpr.phrase (textTokens q) false)
    ∧ (∀ text, ftsQueryMatch (sanitizeFTSQuery q) text
        = (!(textTokens q).isEmpty && hasSubSeq (textTokens q) (textTokens text)))
    ∧ (∀ st limit res, searchSummaries st q limit = Except.ok res →
        ∀ s ∈ res, ∃ r, r ∈ st.rows ∧ summaryOfRow r = s
          ∧ ∃ bt, (r.rowid, bt) ∈ st.fts
            ∧ hasSubSeq (textTokens (strTrim q)) (textTokens (bt.getD "")) = true) := by
  refine ⟨ftsParseQuery_sanitize q, fun text => ftsQueryMatch_sanitize q text,
    fun st limit res hok s hs => ?_⟩
  obtain ⟨r, hrrows, hrs, bt, hbt, hmatch⟩ := searchSummaries_mem st q limit res hok s hs
  rw [ftsQueryMatch_sanitize] at hmatch
  have h2 := (Bool.and_eq_true _ _).mp hmatch
  exact ⟨r, hrrows, hrs, bt, hbt, h2.2⟩

/-- What a successful `InsertWebhook` did: the validations passed, the id
was fresh, and exactly one row plus its index entry were appended. -/
theorem insertWebhook_ok (now : Int) (st : StoreState) (p : InsertParams)
    (st' : StoreState) (h : insertWebhook now st p = Except.ok st') :
    strTrim p.ID ≠ "" ∧ strTrim p.Method ≠ "" ∧ strTrim p.Path ≠ ""
    ∧ st.rows.any (fun r => r.id == p.ID) = false
    ∧ st' = { nextRowid := st.nextRowid + 1,
              rows := st.rows ++ [insertedRow now st p],
              fts := st.fts ++ [(st.nextRowid, nullIfEmpty p.BodyText)] } := by
  by_cases h1 : strTrim p.ID = ""
  · simp [insertWebhook, h1] at h
  · by_cases h2 : strTrim p.Method = "" ∨ strTrim p.Path = ""
    · simp [insertWebhook, h1, h2] at h
    · by_cases h3 : st.rows.any (fun r => r.id == p.ID) = true
      · simp [insertWebhook, h1, h2, h3] at h
      · rw [insertWebhook, if_neg h1, if_neg h2, if_neg h3] at h
        injection h with h
        push_neg at h2
        exact ⟨h1, h2.1, h2.2, by simpa using h3, h.symm⟩

/-- `find?` skips a leading block in which nothing satisfies the
predicate. -/
theorem find?_append_right {α : Type} (p : α → Bool) (l1 l2 : List α)
    (h : l1.any p = false) : (l1 ++ l2).find? p = l2.find? p := by
  induction l1 with
  | nil => rfl
  | cons a rest ih =>
      rw [List.any_cons, Bool.or_eq_false_iff] at h
      rw [List.cons_append, List.find?_cons_of_neg _ (by simp [h.1]), ih h.2]

/-- What a successful `DeleteWebhook` did: the id was non-blank and the
state lost exactly the rows with that id together with their index
entries. -/
theorem deleteWebhook_ok (st : StoreState) (id : String) (st' : StoreState)
    (h : deleteWebhook st id = Except.ok st') :
    strTrim id ≠ ""
    ∧ st' = { st with
        rows := st.rows.filter (fun r => !(r.id == strTrim id)),
        fts := st.fts.filter (fun e =>
          !((st.rows.filter (fun r => r.id == strTrim id)).any
            (fun r => r.rowid == e.1))) } := by
  by_cases hid : strTrim id = ""
  · simp [deleteWebhook, hid] at h
  · by_cases hdel : (st.rows.filter (fun r => r.id == strTrim id)).isEmpty
    · simp [deleteWebhook, hid, hdel] at h
    · rw [deleteWebhook] at h
      simp only [if_neg hid] at h
      rw [if_neg (by simpa using hdel)] at h
      injection h with h
      exact ⟨hid, h.symm⟩

/-- Deleting rows together with exactly their index entries (the shape of
the `webhooks_ad` trigger under any DELETE) keeps the index orphan-free. -/
theorem noOrphans_after_delete (rows : List Row) (fts : List (Nat × Option String))
    (pr : Row → Bool)
    (hno : fts.all (fun e => rows.any (fun r => r.rowid == e.1)) = true) :
    (fts.filter (fun e => !((rows.filter pr).any (fun r => r.rowid == e.1)))).all
      (fun e => (rows.filter (fun r => !(pr r))).any (fun r => r.rowid == e.1))
      = true := by
  rw [List.all_eq_true] at hno ⊢
  intro e he
  obtain ⟨heIn, hkeep⟩ := List.mem_filter.mp he
  obtain ⟨r, hrIn, hbeq⟩ := List.any_eq_true.mp (hno e heIn)
  rw [List.any_eq_true]
  refine ⟨r, List.mem_filter.mpr ⟨hrIn, ?_⟩, hbeq⟩
  by_contra hpr
  have hpr2 : pr r = true := by simpa using hpr
  have hin : (rows.filter pr).any (fun r => r.rowid == e.1) = true :=
    List.any_eq_true.mpr ⟨r, List.mem_filter.mpr ⟨hrIn, hpr2⟩, hbeq⟩
  simp [hin] at hkeep

/-- C3: after `DeleteWebhook(id)` succeeds, `GetWebhook(id)` is NotFound
and `SearchSummaries` no longer returns that id for any query; and the
full-text index never holds an entry for a deleted or absent row — the
orphan-free invariant holds after the delete, holds of the fresh store, and
is preserved by insert, delete-by-id and bulk delete. -/
theorem deleteWebhook_removes_from_get_and_search
    (st st' : StoreState) (id : String)
    (hno : ftsNoOrphans st = true)
    (hdel : deleteWebhook st id = Except.ok st') :
    getWebhook st' id = Except.error ("not found: " ++ strTrim id)
    ∧ (∀ q limit res, searchSummaries st' q limit = Except.ok res →
        ∀ s ∈ res, s.ID ≠ strTrim id)
    ∧ ftsNoOrphans st' = true
    ∧ ftsNoOrphans emptyStore = true
    ∧ (∀ now st0 p st1, insertWebhook now st0 p = Except.ok st1 →
        ftsNoOrphans st0 = true → ftsNoOrphans st1 = true)
    ∧ (∀ nowMs st0 f out, deleteByFilter nowMs st0 f = Except.ok out →
        ftsNoOrphans st0 = true → ftsNoOrphans out.2 = true) := by
  obtain ⟨hid, hst⟩ := deleteWebhook_ok st id st' hdel
  have hrows : st'.rows = st.rows.filter (fun r => !(r.id == strTrim id)) := by
    rw [hst]
  have hfts : st'.fts = st.fts.filter (fun e =>
      !((st.rows.filter (fun r => r.id == strTrim id)).any
        (fun r => r.rowid == e.1))) := by
    rw [hst]
  refine ⟨?_, ?_, ?_, rfl, ?_, ?_⟩
  · rw [getWebhook]
    simp only [if_neg hid]
    have hfind : st'.rows.find? (fun r => r.id == strTrim id) = none := by
      rw [List.find?_eq_none]
      intro r hr
      have := (List.mem_filter.mp (hrows ▸ hr)).2
      simpa using this
    rw [hfind]
  · intro q limit res hok s hs
    obtain ⟨r, hrrows, hrs, _⟩ := searchSummaries_mem st' q limit res hok s hs
    have hne0 := (List.mem_filter.mp (hrows ▸ hrrows)).2
    have hne : ¬ (r.id = strTrim id) := by
      intro hcontra
      rw [hcontra] at hne0
      simp at hne0
    have hsid : s.ID = r.id := by rw [← hrs]; rfl
    rw [hsid]
    exact hne
  · rw [ftsNoOrphans, hrows, hfts]
    exact noOrphans_after_delete st.rows st.fts _ hno
  · intro now st0 p st1 hins hno0
    obtain ⟨_, _, _, _, hst1⟩ := insertWebhook_ok now st0 p st1 hins
    rw [ftsNoOrphans] at hno0 ⊢
    rw [hst1]
    simp only [List.all_append, List.all_cons, List.all_nil, Bool.and_eq_true]
    constructor
    · rw [List.all_eq_true] at hno0 ⊢
      intro e he
      have h1 := hno0 e he
      rw [List.any_eq_true] at h1
      obtain ⟨r, hrIn, hbeq⟩ := h1
      exact List.any_eq_true.mpr ⟨r, List.mem_append_left _ hrIn, hbeq⟩
    · constructor
      · rw [List.any_append]
        have : (insertedRow now st0 p).rowid == st0.nextRowid := by
          simp [insertedRow]
        simp [this]
      · trivial
  · intro nowMs st0 f out hbulk hno0
    by_cases hempty : f.OlderThan ≤ 0 ∧ strTrim f.Provider = "" ∧ f.StatusCode = none
    · simp [deleteByFilter, hempty] at hbulk
    · rw [deleteByFilter, if_neg hempty] at hbulk
      injection hbulk with hbulk
      rw [← hbulk]
      exact noOrphans_after_delete st0.rows st0.fts _ hno0

/-- A concrete two-row store used to witness the delete claim. -/
def c3row1 : Row :=
  { rowid := 1, id := "w1", created_at := 1, method := "POST", path := "/a",
    query := none, headers := [], body := "b1", provider := none,
    event_type := none, signature := none, status_code := none,
    response_ms := 0, body_text := some "alpha beta" }

/-- Second concrete row. -/
def c3row2 : Row :=
  { rowid := 2, id := "w2", created_at := 2, method := "POST", path := "/b",
    query := none, headers := [], body := "b2", provider := none,
    event_type := none, signature := none, status_code := none,
    response_ms := 0, body_text := some "gamma" }

/-- The two-row store with its index in sync. -/
def c3stBefore : StoreState :=
  { nextRowid := 3, rows := [c3row1, c3row2],
    fts := [(1, some "alpha beta"), (2, some "gamma")] }

/-- The same store after deleting "w1". -/
def c3stAfter : StoreState :=
  { nextRowid := 3, rows := [c3row2], fts := [(2, some "gamma")] }

/-- Witness for C3: deleting "w1" from the concrete store makes its Get a
not-found error. -/
theorem deleteWebhook_removes_from_get_and_search_witness :
    getWebhook c3stAfter "w1" = Except.error ("not found: " ++ strTrim "w1") :=
  (deleteWebhook_removes_from_get_and_search c3stBefore c3stAfter "w1"
    (by decide) rfl).1

/-- After a successful insert of an id without surrounding whitespace,
`GetWebhook` finds exactly the appended row. -/
theorem getWebhook_after_insert (now : Int) (st : StoreState) (p : InsertParams)
    (st' : StoreState) (hins : insertWebhook now st p = Except.ok st')
    (hid : strTrim p.ID = p.ID) :
    getWebhook st' p.ID = Except.ok (webhookOfRow (insertedRow now st p)) := by
  obtain ⟨hID, _, _, hdup, hst⟩ := insertWebhook_ok now st p st' hins
  rw [getWebhook]
  simp only [hid]
  rw [if_neg (hid ▸ hID), hst]
  have hfind : (st.rows ++ [insertedRow now st p]).find? (fun r => r.id == p.ID)
      = some (insertedRow now st p) := by
    rw [find?_append_right _ _ _ hdup, List.find?_cons_of_pos _ (by simp [insertedRow])]
  rw [hfind]

/-- A blank-or-solid optional column round-trips through `nullIfEmpty` and
the NULL-to-zero-value read-back. -/
theorem nullIfEmpty_getD (s : String) (h : s = "" ∨ strTrim s ≠ "") :
    (nullIfEmpty s).getD "" = s := by
  rcases h with h | h
  · subst h
    rfl
  · rw [nullIfEmpty, if_neg h]
    rfl

/-- C4, counterexample: a valid insert whose Query is a single space (id,
method, path all non-empty) succeeds, but `GetWebhook` returns Query "" —
the whitespace-only field is not preserved, so the read-back record is not
equal to what was inserted. -/
theorem insert_get_roundtrip_cex :
    ∃ st1 wh,
      insertWebhook 5 emptyStore
        { ID := "cex1", CreatedAt := 7, Method := "POST", Path := "/p",
          Query := " ", Headers := [], Body := "", Provider := "",
          EventType := "", Signature := "", StatusCode := none,
          ResponseMS := 0, BodyText := "" } = Except.ok st1
      ∧ getWebhook st1 "cex1" = Except.ok wh
      ∧ wh.Query ≠ " " := by
  exact ⟨_, _, rfl, rfl, by decide⟩

/-- C4 (amended): for every valid insert whose id carries no surrounding
whitespace, whose created_at is non-zero (a zero one is replaced by the
insertion time), and whose optional string fields (query, provider,
event_type, signature, body_text) are each either empty or not
whitespace-only, `GetWebhook` returns a record equal to what was inserted,
field for field — headers, body bytes and status code included. -/
theorem insertWebhook_getWebhook_roundtrip
    (now : Int) (st : StoreState) (p : InsertParams) (st' : StoreState)
    (hins : insertWebhook now st p = Except.ok st')
    (hid : strTrim p.ID = p.ID)
    (hca : p.CreatedAt ≠ 0)
    (hq : p.Query = "" ∨ strTrim p.Query ≠ "")
    (hprov : p.Provider = "" ∨ strTrim p.Provider ≠ "")
    (hev : p.EventType = "" ∨ strTrim p.EventType ≠ "")
    (hsig : p.Signature = "" ∨ strTrim p.Signature ≠ "")
    (hbt : p.BodyText = "" ∨ strTrim p.BodyText ≠ "") :
    getWebhook st' p.ID = Except.ok
      { ID := p.ID, CreatedAt := p.CreatedAt, Method := p.Method, Path := p.Path,
        Query := p.Query, Headers := p.Headers, Body := p.Body,
        Provider := p.Provider, EventType := p.EventType,
        Signature := p.Signature, StatusCode := p.StatusCode,
        ResponseMS := p.ResponseMS, BodyText := p.BodyText } := by
  rw [getWebhook_after_insert now st p st' hins hid]
  congr 1
  rw [webhookOfRow, insertedRow]
  simp only [if_neg hca, nullIfEmpty_getD _ hq, nullIfEmpty_getD _ hprov,
    nullIfEmpty_getD _ hev, nullIfEmpty_getD _ hsig, nullIfEmpty_getD _ hbt]

/-- Witness for C4's amended round-trip at a fully populated record. -/
theorem insertWebhook_getWebhook_roundtrip_witness :
    getWebhook
        { nextRowid := 2,
          rows := [insertedRow 5 emptyStore
            { ID := "abc123", CreatedAt := 1700000000000, Method := "POST",
              Path := "/hooks/stripe", Query := "a=1",
              Headers := [("Content-Type", ["application/json"])],
              Body := "\x7b\"hello\":\"world\"\x7d", Provider := "stripe",
              EventType := "evt", Signature := "t=1,v1=abc",
              StatusCode := some 200, ResponseMS := 12,
              BodyText := "\x7b\"hello\":\"world\"\x7d" }],
          fts := [(1, nullIfEmpty "\x7b\"hello\":\"world\"\x7d")] }
        "abc123"
      = Except.ok
        { ID := "abc123", CreatedAt := 1700000000000, Method := "POST",
          Path := "/hooks/stripe", Query := "a=1",
          Headers := [("Content-Type", ["application/json"])],
          Body := "\x7b\"hello\":\"world\"\x7d", Provider := "stripe",
          EventType := "evt", Signature := "t=1,v1=abc",
          StatusCode := some 200, ResponseMS := 12,
          BodyText := "\x7b\"hello\":\"world\"\x7d" } :=
  insertWebhook_getWebhook_roundtrip 5 emptyStore
    { ID := "abc123", CreatedAt := 1700000000000, Method := "POST",
      Path := "/hooks/stripe", Query := "a=1",
      Headers := [("Content-Type", ["application/json"])],
      Body := "\x7b\"hello\":\"world\"\x7d", Provider := "stripe",
      EventType := "evt", Signature := "t=1,v1=abc",
      StatusCode := some 200, ResponseMS := 12,
      BodyText := "\x7b\"hello\":\"world\"\x7d" }
    _ rfl (by decide) (by decide)
    (Or.inr (by decide)) (Or.inr (by decide)) (Or.inr (by decide))
    (Or.inr (by decide)) (Or.inr (by decide))

/-- C10: a successful insert whose optional string field (query, provider,
event_type, signature or body_text) is blank — empty or whitespace-only —
stores that column as NULL, and `GetWebhook` reads the field back as "":
the whitespace content is not preserved and is indistinguishable from an
absent value. -/
theorem insertWebhook_blank_optionals_null
    (now : Int) (st : StoreState) (p : InsertParams) (st' : StoreState)
    (hins : insertWebhook now st p = Except.ok st')
    (hid : strTrim p.ID = p.ID) :
    st'.rows = st.rows ++ [insertedRow now st p]
    ∧ getWebhook st' p.ID = Except.ok (webhookOfRow (insertedRow now st p))
    ∧ (strTrim p.Query = "" → (insertedRow now st p).query = none
        ∧ (webhookOfRow (insertedRow now st p)).Query = "")
    ∧ (strTrim p.Provider = "" → (insertedRow now st p).provider = none
        ∧ (webhookOfRow (insertedRow now st p)).Provider = "")
    ∧ (strTrim p.EventType = "" → (insertedRow now st p).event_type = none
        ∧ (webhookOfRow (insertedRow now st p)).EventType = "")
    ∧ (strTrim p.Signature = "" → (insertedRow now st p).signature = none
        ∧ (webhookOfRow (insertedRow now st p)).Signature = "")
    ∧ (strTrim p.BodyText = "" → (insertedRow now st p).body_text = none
        ∧ (webhookOfRow (insertedRow now st p)).BodyText = "") := by
  obtain ⟨_, _, _, _, hst⟩ := insertWebhook_ok now st p st' hins
  refine ⟨by rw [hst], getWebhook_after_insert now st p st' hins hid,
    fun h => ?_, fun h => ?_, fun h => ?_, fun h => ?_, fun h => ?_⟩ <;>
    simp [insertedRow, webhookOfRow, nullIfEmpty, h]

/-- Witness for C10: a whitespace-only Query comes back as "". -/
theorem insertWebhook_blank_optionals_null_witness :
    ({ nextRowid := 2,
       rows := emptyStore.rows ++ [insertedRow 9 emptyStore
         { ID := "c10", CreatedAt := 3, Method := "GET", Path := "/x",
           Query := "  ", Headers := [], Body := "", Provider := "",
           EventType := "", Signature := "", StatusCode := none,
           ResponseMS := 0, BodyText := " " }],
       fts := [(1, nullIfEmpty " ")] } : StoreState).rows
      = emptyStore.rows ++ [insertedRow 9 emptyStore
         { ID := "c10", CreatedAt := 3, Method := "GET", Path := "/x",
           Query := "  ", Headers := [], Body := "", Provider := "",
           EventType := "", Signature := "", StatusCode := none,
           ResponseMS := 0, BodyText := " " }] :=
  (insertWebhook_blank_optionals_null 9 emptyStore
    { ID := "c10", CreatedAt := 3, Method := "GET", Path := "/x",
      Query := "  ", Headers := [], Body := "", Provider := "",
      EventType := "", Signature := "", StatusCode := none,
      ResponseMS := 0, BodyText := " " }
    _ rfl (by decide)).1

/-- A prefix of a descending row list is descending. -/
theorem sortedRows_take : ∀ (l : List Row) (n : Nat),
    sortedByCreatedDesc l = true → sortedByCreatedDesc (l.take n) = true := by
  intro l
  induction l with
  | nil => intro n h; simpa using h
  | cons a rest ih =>
      intro n h
      cases n with
      | zero => rfl
      | succ m =>
          cases rest with
          | nil =>
              cases m <;> exact h
          | cons b rest2 =>
              have hsplit : (decide (b.created_at ≤ a.created_at)
                  && sortedByCreatedDesc (b :: rest2)) = true := h
              obtain ⟨hab, h2⟩ := (Bool.and_eq_true _ _).mp hsplit
              cases m with
              | zero => rfl
              | succ k =>
                  have hrec := ih (k + 1) h2
                  show (decide (b.created_at ≤ a.created_at)
                      && sortedByCreatedDesc (b :: rest2.take k)) = true
                  rw [hab]
                  simpa using hrec

/-- Mapping rows to summaries preserves the descending order. -/
theorem sortedSumm_map : ∀ (l : List Row), sortedByCreatedDesc l = true →
    sortedByCreatedDescSumm (l.map summaryOfRow) = true := by
  intro l
  induction l with
  | nil => intro h; exact h
  | cons a rest ih =>
      intro h
      cases rest with
      | nil => rfl
      | cons b rest2 =>
          have hsplit : (decide (b.created_at ≤ a.created_at)
              && sortedByCreatedDesc (b :: rest2)) = true := h
          obtain ⟨hab, h2⟩ := (Bool.and_eq_true _ _).mp hsplit
          have hrec := ih h2
          show (decide ((summaryOfRow b).CreatedAt ≤ (summaryOfRow a).CreatedAt)
              && sortedByCreatedDescSumm (summaryOfRow b :: rest2.map summaryOfRow))
              = true
          rw [show (summaryOfRow b).CreatedAt = b.created_at from rfl,
            show (summaryOfRow a).CreatedAt = a.created_at from rfl, hab]
          simpa using hrec

/-- First concrete row for the list-ordering claim (a tie on
`created_at`). -/
def c7row1 : Row :=
  { rowid := 1, id := "a", created_at := 5, method := "POST", path := "/a",
    query := none, headers := [], body := "", provider := none,
    event_type := none, signature := none, status_code := none,
    response_ms := 0, body_text := none }

/-- Second concrete row with the same `created_at`. -/
def c7row2 : Row :=
  { rowid := 2, id := "b", created_at := 5, method := "POST", path := "/b",
    query := none, headers := [], body := "", provider := none,
    event_type := none, signature := none, status_code := none,
    response_ms := 0, body_text := none }

/-- The two-row tied store. -/
def c7st : StoreState :=
  { nextRowid := 3, rows := [c7row1, c7row2], fts := [] }

/-- An unrestricted list filter with limit 10. -/
def c7filter : ListFilter :=
  { Limit := 10, Provider := "", StatusCode := none, FromMs := none, ToMs := none }

/-- C7, counterexample: with two rows tied on `created_at`, both orders of
the result satisfy the `ORDER BY created_at DESC LIMIT ?` contract —
nothing in the query determines which one a call returns, so the order is
not fully determined and there is no deterministic tiebreak. -/
theorem listSummaries_order_not_determined_cex :
    listSummariesResult c7st c7filter
      [summaryOfRow c7row1, summaryOfRow c7row2]
    ∧ listSummariesResult c7st c7filter
      [summaryOfRow c7row2, summaryOfRow c7row1]
    ∧ [summaryOfRow c7row1, summaryOfRow c7row2]
        ≠ [summaryOfRow c7row2, summaryOfRow c7row1] :=
  ⟨⟨[c7row1, c7row2], by decide, by decide, by decide⟩,
   ⟨[c7row2, c7row1], by decide, by decide, by decide⟩, by decide⟩

/-- C7 (amended): every result `ListSummaries` can return is ordered by
`created_at` descending and bounded by the clamped limit; the relative
order of rows with equal `created_at` is left unspecified by the query (no
tiebreak column), so it is not fully determined. -/
theorem listSummaries_sorted_and_bounded
    (st : StoreState) (f : ListFilter) (out : List WebhookSummary)
    (h : listSummariesResult st f out) :
    sortedByCreatedDescSumm out = true ∧ out.length ≤ (clampLimit f.Limit).toNat := by
  obtain ⟨perm, _, hsort, hout⟩ := h
  subst hout
  refine ⟨sortedSumm_map _ (sortedRows_take _ _ hsort), ?_⟩
  rw [List.length_map]
  exact List.length_take_le _ _

/-- Witness for C7's amended ordering bound at the concrete tied store. -/
theorem listSummaries_sorted_and_bounded_witness :
    sortedByCreatedDescSumm [summaryOfRow c7row1, summaryOfRow c7row2] = true
    ∧ ([summaryOfRow c7row1, summaryOfRow c7row2] :
        List WebhookSummary).length ≤ (clampLimit c7filter.Limit).toNat :=
  listSummaries_sorted_and_bounded c7st c7filter
    [summaryOfRow c7row1, summaryOfRow c7row2]
    ⟨[c7row1, c7row2], by decide, by decide, by decide⟩

/-- `proxy.MaxRequestBodySize`: the 10MB inbound body cap. -/
def MaxRequestBodySize : Nat := 10 * 1024 * 1024

/-- `proxy.MaxBodyTextLength`: the 200KB searchable-text cap. -/
def MaxBodyTextLength : Nat := 200000

/-- Embedding of the proxy's `extractBodyText`: textual, JSON, XML and
form-encoded content types index up to the cap; anything else indexes
nothing. -/
def extractBodyText (contentType : String) (body : String) : String :=
  if body.length = 0 then ""
  else
    let b := if body.length > MaxBodyTextLength
      then String.mk (body.data.take MaxBodyTextLength) else body
    let ct := strToLower contentType
    if strContains ct "application/json" || strContains ct "application/xml"
        || strContains ct "text/"
        || strContains ct "application/x-www-form-urlencoded"
    then b else ""

/-- An inbound capture request as `ServeHTTP` observes it: method, URL
path and raw query, headers, the request body stream, and whether the
request's context is already cancelled on entry. -/
structure HttpRequest where
  method : String
  path : String
  rawQuery : String
  headers : List (String × List String)
  body : String
  ctxCancelled : Bool
deriving DecidableEq

/-- What the forward call (`RecorderProxy.forward`, one `client.Do` under
the inbound request's context) yields for this request: the upstream status
streamed back, or a network-level failure (DNS / connect / timeout). -/
inductive ForwardOutcome where
  | success (status : Int)
  | failure (msg : String)
deriving DecidableEq

/-- What one `ServeHTTP` call produced: the HTTP status written to the
caller and the insert passed to the store (`none` when the handler returned
before reaching storage). -/
structure ServeResult where
  status : Int
  recorded : Option InsertParams
deriving DecidableEq

/-- Embedding of `RecorderProxy.ServeHTTP`.  `target` is the configured
forward target (`none` = record-only), `fwd` the forward call's outcome,
`fwdMs` the measured forward latency, `elapsedMs` the handler-measured
latency on the failure and record-only paths, `id` the generated nanoid and
`now` the capture timestamp.  The body is read through a reader limited to
one byte over the cap, so an oversize body is rejected — before detection
and before any storage call — with 413; a pre-cancelled context gives 503
and records nothing; a forward network failure writes 502 and records that
same 502; record-only writes 200.  (The body-read I/O error and id
generation failure branches, which also record nothing, are not modelled:
the embedded request body is always readable.) -/
def serveHTTP (target : Option String) (fwd : ForwardOutcome)
    (fwdMs elapsedMs : Int) (id : String) (now : Int)
    (r : HttpRequest) : ServeResult :=
  if r.ctxCancelled then { status := 503, recorded := none }
  else
    let body := String.mk (r.body.data.take (MaxRequestBodySize + 1))
    if body.length > MaxRequestBodySize then { status := 413, recorded := none }
    else
      let det := Detect r.headers body
      let bodyText := extractBodyText (hGet r.headers "Content-Type") body
      let mk : Option Int → Int → InsertParams := fun sc ms =>
        { ID := id, CreatedAt := now, Method := r.method, Path := r.path,
          Query := r.rawQuery, Headers := r.headers, Body := body,
          Provider := det.1, EventType := det.2.1, Signature := det.2.2,
          StatusCode := sc, ResponseMS := ms, BodyText := bodyText }
      match target with
      | some _ =>
          match fwd with
          | ForwardOutcome.success sc =>
              { status := sc, recorded := some (mk (some sc) fwdMs) }
          | ForwardOutcome.failure _ =>
              { status := 502, recorded := some (mk (some 502) elapsedMs) }
      | none => { status := 200, recorded := some (mk (some 200) elapsedMs) }

/-- C5: an inbound capture request whose body exceeds the 10MB cap is
answered 413 and nothing is recorded — the handler returns before provider
detection and before any storage call, whatever the forward configuration
and outcome, so the store's contents are untouched. -/
theorem serveHTTP_oversize_rejected
    (target : Option String) (fwd : ForwardOutcome) (fwdMs elapsedMs : Int)
    (id : String) (now : Int) (r : HttpRequest)
    (hc : r.ctxCancelled = false)
    (hlen : r.body.length > MaxRequestBodySize) :
    serveHTTP target fwd fwdMs elapsedMs id now r
      = { status := 413, recorded := none } := by
  have hmin : MaxRequestBodySize + 1 ≤ r.body.data.length := hlen
  have hgt : (String.mk (r.body.data.take (MaxRequestBodySize + 1))).length
      > MaxRequestBodySize := by
    show (r.body.data.take (MaxRequestBodySize + 1)).length > MaxRequestBodySize
    rw [List.length_take, Nat.min_eq_left hmin]
    exact Nat.lt_succ_self _
  simp [serveHTTP, hc, hgt, hlen]

/-- Witness for C5: a body one byte over the cap is rejected with 413 and
no record. -/
theorem serveHTTP_oversize_rejected_witness :
    serveHTTP none (ForwardOutcome.success 200) 0 0 "id1" 1
      { method := "POST", path := "/wh", rawQuery := "", headers := [],
        body := String.mk (List.replicate (MaxRequestBodySize + 1) 'a'),
        ctxCancelled := false }
      = { status := 413, recorded := none } :=
  serveHTTP_oversize_rejected none (ForwardOutcome.success 200) 0 0 "id1" 1
    { method := "POST", path := "/wh", rawQuery := "", headers := [],
      body := String.mk (List.replicate (MaxRequestBodySize + 1) 'a'),
      ctxCancelled := false }
    rfl
    (by
      show (String.mk (List.replicate (MaxRequestBodySize + 1) 'a')).length
          > MaxRequestBodySize
      rw [show (String.mk (List.replicate (MaxRequestBodySize + 1) 'a')).length
            = (List.replicate (MaxRequestBodySize + 1) 'a').length from rfl,
        List.length_replicate]
      exact Nat.lt_succ_self _)

/-- C1: when a forward target is configured and the forward call fails at
the network level, the caller receives 502 and the insert passed to the
store carries that same 502 status; any row a successful insert of those
parameters appends has `status_code` 502. -/
theorem serveHTTP_forward_failure_502
    (t msg : String) (fwdMs elapsedMs : Int) (id : String) (now : Int)
    (r : HttpRequest)
    (hc : r.ctxCancelled = false)
    (hlen : r.body.length ≤ MaxRequestBodySize) :
    (serveHTTP (some t) (ForwardOutcome.failure msg) fwdMs elapsedMs id now r).status
      = 502
    ∧ ∃ p, (serveHTTP (some t) (ForwardOutcome.failure msg) fwdMs elapsedMs
          id now r).recorded = some p
        ∧ p.StatusCode = some 502
        ∧ (∀ now2 st st', insertWebhook now2 st p = Except.ok st' →
            ∃ row, st'.rows = st.rows ++ [row] ∧ row.status_code = some 502) := by
  have hserve : serveHTTP (some t) (ForwardOutcome.failure msg) fwdMs elapsedMs
      id now r
      = { status := 502,
          recorded := some
            { ID := id, CreatedAt := now, Method := r.method, Path := r.path,
              Query := r.rawQuery, Headers := r.headers,
              Body := String.mk (r.body.data.take (MaxRequestBodySize + 1)),
              Provider := (Detect r.headers
                (String.mk (r.body.data.take (MaxRequestBodySize + 1)))).1,
              EventType := (Detect r.headers
                (String.mk (r.body.data.take (MaxRequestBodySize + 1)))).2.1,
              Signature := (Detect r.headers
                (String.mk (r.body.data.take (MaxRequestBodySize + 1)))).2.2,
              StatusCode := some 502, ResponseMS := elapsedMs,
              BodyText := extractBodyText (hGet r.headers "Content-Type")
                (String.mk (r.body.data.take (MaxRequestBodySize + 1))) } } := by
    simp [serveHTTP, hc, Nat.not_lt.mpr hlen]
  refine ⟨by rw [hserve], ⟨_, by rw [hserve], rfl, ?_⟩⟩
  intro now2 st st' hins
  obtain ⟨_, _, _, _, hst⟩ := insertWebhook_ok now2 st _ st' hins
  exact ⟨_, by rw [hst], rfl⟩

/-- Witness for C1: a small JSON capture forwarded into a failing network
call comes back 502. -/
theorem serveHTTP_forward_failure_502_witness :
    (serveHTTP (some "http://localhost:9") (ForwardOutcome.failure "dial refused")
        3 4 "id2" 1
        { method := "POST", path := "/wh", rawQuery := "a=1",
          headers := [("Content-Type", ["application/json"])],
          body := "\x7b\"type\":\"x\"\x7d", ctxCancelled := false }).status = 502 :=
  (serveHTTP_forward_failure_502 "http://localhost:9" "dial refused" 3 4 "id2" 1
    { method := "POST", path := "/wh", rawQuery := "a=1",
      headers := [("Content-Type", ["application/json"])],
      body := "\x7b\"type\":\"x\"\x7d", ctxCancelled := false }
    rfl (by decide)).1

end HookTM
